import Mathlib

/-!
Shallow embedding of the ZeroPR agent's core subsystems, translated from the
repository sources:

* `src/extension/src/sessionManager.ts` — `PresenceManager.updateStatus` and its
  thresholds (times in milliseconds, as produced by `Date.now()`).
* `src/agent/internal/sessions/manager.go` — the session `Manager`
  (`Create` / `Get` / `AddParticipant` / `RemoveParticipant` / `GetAll` / `Count`)
  and the peer `Registry` (`Add` / `Get` / `GetAll` / `Remove` / `Cleanup` / `Count`).
  Go maps are modelled as lists keyed by the `ID` field, with map assignment
  modelled as cons-plus-dropping-the-old-key; `time.Now()` is passed in
  explicitly as a `Nat` (nanoseconds).
* `src/agent/internal/server/server.go` — the HTTP session handlers
  (`handleSessionCreate` / `handleSessionJoin` / `handleSessionLeave`) and the
  per-message behaviour of the `handleYjsSync` WebSocket relay loop.
* `src/agent/internal/discovery/discovery.go` — `Service.isSelf`,
  `Service.buildPeer`, `parseTXT`, and the per-entry step of the discovery
  browse cycle in `startDiscovery`.

Stateful Go code becomes explicit state passing; fallible lookups return
`Option`; wall-clock reads become explicit `now` parameters.
-/

namespace ZeroPR

/-! ### Presence (src/extension/src/sessionManager.ts, PresenceManager) -/

inductive PresenceStatus where
  | editing
  | idle
  | away
deriving DecidableEq

namespace PresenceManager

/-- `private readonly idleThreshold = 30000; // 30 seconds` (milliseconds). -/
def idleThreshold : Nat := 30000

/-- `private readonly awayThreshold = 300000; // 5 minutes` (milliseconds). -/
def awayThreshold : Nat := 300000

/-- Translation of `PresenceManager.updateStatus` (sessionManager.ts): the
input is `timeSinceActivity = now - this.lastActivity` in milliseconds, and the
result is the status the method stores into `this.currentStatus`. -/
def updateStatus (timeSinceActivity : Nat) : PresenceStatus :=
  if timeSinceActivity > awayThreshold then .away
  else if timeSinceActivity > idleThreshold then .idle
  else .editing

end PresenceManager

/-! ### Peer registry (src/agent/internal/sessions/manager.go, package peers) -/

/-- Translation of `peers.Peer`. `LastSeen` is a `Nat` timestamp
(nanoseconds since the epoch, standing in for `time.Time`). -/
structure Peer where
  ID : String
  Name : String
  Address : String
  Port : Nat
  RepoHash : String
  Branch : String
  ActiveFile : String
  Status : String
  LastSeen : Nat
  Trusted : Bool
deriving DecidableEq

/-- Translation of `peers.Registry`: the Go map `peers map[string]*Peer` is a
list keyed by the `ID` field. -/
structure Registry where
  peers : List Peer
deriving DecidableEq

namespace Registry

/-- `NewRegistry` (manager.go): an empty peer table. -/
def empty : Registry := ⟨[]⟩

/-- Translation of `Registry.Add` (manager.go:156-162): the registry stamps
`peer.LastSeen = time.Now()` itself before storing, then overwrites the map
entry for `peer.ID`. The wall-clock read is the explicit `now` argument. -/
def Add (r : Registry) (peer : Peer) (now : Nat) : Registry :=
  ⟨{ peer with LastSeen := now } :: r.peers.filter (fun q => q.ID ≠ peer.ID)⟩

/-- Translation of `Registry.Get` (manager.go:165-171). -/
def Get (r : Registry) (id : String) : Option Peer :=
  r.peers.find? (fun p => p.ID = id)

/-- Translation of `Registry.GetAll` (manager.go:174-183). -/
def GetAll (r : Registry) : List Peer := r.peers

/-- Translation of `Registry.Remove` (manager.go:186-191). -/
def Remove (r : Registry) (id : String) : Registry :=
  ⟨r.peers.filter (fun p => p.ID ≠ id)⟩

/-- Translation of `Registry.Cleanup` (manager.go:194-204): deletes every peer
with `now.Sub(peer.LastSeen) > timeout`. Times are `Nat`; the truncated
subtraction agrees with Go's signed duration comparison for the non-negative
timeouts the agent uses. -/
def Cleanup (r : Registry) (now timeout : Nat) : Registry :=
  ⟨r.peers.filter (fun p => ¬(now - p.LastSeen > timeout))⟩

/-- Translation of `Registry.Count` (manager.go:207-212). -/
def Count (r : Registry) : Nat := r.peers.length

end Registry

/-! ### Sessions (src/agent/internal/sessions/manager.go, package sessions) -/

/-- Translation of `sessions.Session`. `CreatedAt` is a `Nat` timestamp. -/
structure Session where
  ID : String
  FilePath : String
  Participants : List String
  Initiator : String
  CreatedAt : Nat
deriving DecidableEq

/-- Translation of `sessions.Manager`: the Go map `sessions map[string]*Session`
is a list keyed by the `ID` field. -/
structure Manager where
  sessions : List Session
deriving DecidableEq

/-- Removal of the first matching element, as in the `RemoveParticipant` loop
(manager.go:88-93), which deletes one occurrence and then `break`s. -/
def removeFirst (participantID : String) : List String → List String
  | [] => []
  | p :: ps => if p = participantID then ps else p :: removeFirst participantID ps

namespace Manager

/-- `NewManager` (manager.go:24-28): an empty session table. -/
def empty : Manager := ⟨[]⟩

/-- Translation of `Manager.Create` (manager.go:31-45): builds the new session
with `Participants = [initiator]` and assigns it into the map, overwriting any
existing entry under the same id. `time.Now()` is the explicit `now`. -/
def Create (m : Manager) (id filePath initiator : String) (now : Nat) :
    Session × Manager :=
  let session : Session := ⟨id, filePath, [initiator], initiator, now⟩
  (session, ⟨session :: m.sessions.filter (fun t => t.ID ≠ id)⟩)

/-- Translation of `Manager.Get` (manager.go:48-54). -/
def Get (m : Manager) (id : String) : Option Session :=
  m.sessions.find? (fun s => s.ID = id)

/-- In-place mutation of the session struct pointed to by the map: every stored
session with the same id as `s'` becomes `s'`. -/
def setSession (m : Manager) (s' : Session) : Manager :=
  ⟨m.sessions.map (fun t => if t.ID = s'.ID then s' else t)⟩

/-- Translation of `Manager.AddParticipant` (manager.go:57-75): `false` when
the session is unknown; when the participant is already present it returns
`true` without touching the list; otherwise it appends. -/
def AddParticipant (m : Manager) (sessionID participantID : String) :
    Bool × Manager :=
  match m.Get sessionID with
  | none => (false, m)
  | some s =>
    if participantID ∈ s.Participants then (true, m)
    else (true, m.setSession { s with Participants := s.Participants ++ [participantID] })

/-- Translation of `Manager.RemoveParticipant` (manager.go:78-99): unknown
session is a silent no-op; otherwise the first occurrence of the participant is
removed and, if the participant slice became empty, the session is deleted from
the map in the same step. -/
def RemoveParticipant (m : Manager) (sessionID participantID : String) : Manager :=
  match m.Get sessionID with
  | none => m
  | some s =>
    let ps := removeFirst participantID s.Participants
    if ps.isEmpty then ⟨m.sessions.filter (fun t => t.ID ≠ sessionID)⟩
    else m.setSession { s with Participants := ps }

/-- Translation of `Manager.GetAll` (manager.go:102-111). -/
def GetAll (m : Manager) : List Session := m.sessions

/-- Translation of `Manager.Count` (manager.go:114-119). -/
def Count (m : Manager) : Nat := m.sessions.length

end Manager

/-! ### HTTP session handlers (src/agent/internal/server/server.go) -/

/-- Go's `http.StatusOK`. -/
def StatusOK : Nat := 200

/-- Go's `http.StatusNotFound`, produced by `http.Error(w, "Session not found",
http.StatusNotFound)`. -/
def StatusNotFound : Nat := 404

/-- Session id generation in `handleSessionCreate` (server.go:289):
`fmt.Sprintf("session-%d", time.Now().UnixNano())`. -/
def genSessionID (nowUnixNano : Nat) : String :=
  "session-" ++ toString nowUnixNano

/-- Translation of `handleSessionCreate` (server.go:277-300): generates the id
from the current `UnixNano` clock reading and calls `Manager.Create`. -/
def handleSessionCreate (m : Manager) (filePath initiator : String)
    (nowUnixNano : Nat) : Session × Manager :=
  m.Create (genSessionID nowUnixNano) filePath initiator nowUnixNano

/-- Translation of `handleSessionJoin` (server.go:302-322): 404 when
`AddParticipant` reports the session unknown, 200 otherwise. -/
def handleSessionJoin (m : Manager) (sessionID participantID : String) :
    Nat × Manager :=
  let r := m.AddParticipant sessionID participantID
  if r.1 then (StatusOK, r.2) else (StatusNotFound, r.2)

/-- Translation of `handleSessionLeave` (server.go:324-340): calls
`RemoveParticipant` and unconditionally answers 200 with `{"status":"left"}`;
no error path exists besides request-body decoding. -/
def handleSessionLeave (m : Manager) (sessionID participantID : String) :
    Nat × Manager :=
  (StatusOK, m.RemoveParticipant sessionID participantID)

/-! ### Relay (src/agent/internal/server/server.go, handleYjsSync) -/

/-- Per-message behaviour of the `handleYjsSync` read loop
(server.go:374-389): each message read from a connection is written back to
that same connection (`conn.WriteMessage(messageType, message)`); no other
connection receives anything. The result lists the (connection, payload)
deliveries caused by one inbound message; payload bytes are `Nat`s. -/
def handleYjsSyncDeliveries (sender : String) (payload : List Nat) :
    List (String × List Nat) :=
  [(sender, payload)]

/-- Modelled from the spec: `Dispatch(sessionId, senderConnection, payload)`
of §4.7 SyncRelay, which is absent from the source (the source's echo loop is
marked `TODO: Broadcast to all other participants in the session`). It delivers
the payload unmodified to every connection in the session's fan-out group
except the sender. -/
def DispatchSpec (group : List String) (sender : String) (payload : List Nat) :
    List (String × List Nat) :=
  (group.filter (fun c => c ≠ sender)).map (fun c => (c, payload))

/-! ### Discovery (src/agent/internal/discovery/discovery.go) -/

/-- Translation of the fields of `zeroconf.ServiceEntry` used by the agent:
instance name, port, IPv4/IPv6 addresses (as their canonical string forms, the
keys Go derives with `addr.String()`), and TXT records. -/
structure ServiceEntry where
  Instance : String
  Port : Nat
  AddrIPv4 : List String
  AddrIPv6 : List String
  Text : List String
deriving DecidableEq

/-- The parts of `discovery.Service` consulted by `isSelf` and `buildPeer`:
the advertised identity plus the local address sets maintained by
`updateLocalAddrs`. -/
structure Service where
  deviceName : String
  port : Nat
  localIPv4 : List String
  localIPv6 : List String
deriving DecidableEq

/-- Overwriting insertion into the TXT key/value map (Go map assignment). -/
def txtInsert (values : List (String × String)) (k v : String) :
    List (String × String) :=
  (k, v) :: values.filter (fun p => p.1 ≠ k)

/-- Go map lookup `txt[k]`, with the zero value `""` for a missing key. -/
def txtLookup (values : List (String × String)) (k : String) : String :=
  match values.find? (fun p => p.1 = k) with
  | some p => p.2
  | none => ""

/-- Translation of `parseTXT` (discovery.go:295-314): each record is split at
its first `=`; both sides are trimmed; an empty key after a `=` is skipped; a
record without `=` becomes a key with empty value. -/
def parseTXT (records : List String) : List (String × String) :=
  records.foldl
    (fun values record =>
      if record = "" then values
      else
        match record.splitOn "=" with
        | [] => values
        | [single] => txtInsert values single.trim ""
        | key :: rest =>
          let k := key.trim
          let v := (String.intercalate "=" rest).trim
          if k = "" then values else txtInsert values k v)
    []

namespace Service

/-- Translation of `Service.isSelf` (discovery.go:226-251): `false` unless the
entry's port and instance name both match the advertised identity; otherwise
`true` exactly when one of the entry's IPv4 addresses is a current local IPv4
address or one of its IPv6 addresses is a current local IPv6 address. (The Go
`nil`-entry guard has no counterpart: entries are values here.) -/
def isSelf (s : Service) (e : ServiceEntry) : Bool :=
  if e.Port ≠ s.port ∨ e.Instance ≠ s.deviceName then false
  else
    e.AddrIPv4.any (fun a => a ∈ s.localIPv4) ||
    e.AddrIPv6.any (fun a => a ∈ s.localIPv6)

/-- The `peers.Peer` literal built at discovery.go:270-289, once an address
has been selected. -/
def mkPeer (e : ServiceEntry) (address : String) (now : Nat) : Peer :=
  let txt := parseTXT e.Text
  let status := if txtLookup txt "status" ≠ "" then txtLookup txt "status" else "idle"
  { ID := e.Instance ++ "@" ++ address ++ ":" ++ toString e.Port
    Name := e.Instance
    Address := address
    Port := e.Port
    RepoHash := txtLookup txt "repoHash"
    Branch := txtLookup txt "branch"
    ActiveFile := txtLookup txt "activeFile"
    Status := status
    LastSeen := now
    Trusted := txtLookup txt "trusted" = "true" }

/-- Translation of `Service.buildPeer` (discovery.go:254-292): the address is
the first IPv4 address, else the first IPv6 address, else the entry is dropped;
metadata comes from the TXT records with empty/neutral defaults. -/
def buildPeer (_s : Service) (e : ServiceEntry) (now : Nat) : Option Peer :=
  match e.AddrIPv4, e.AddrIPv6 with
  | [], [] => none
  | a4 :: _, _ => some (mkPeer e a4 now)
  | [], a6 :: _ => some (mkPeer e a6 now)

/-- The per-entry step of the discovery browse cycle (discovery.go:119-134):
an entry recognised as self is skipped; otherwise, if `buildPeer` yields a
peer, it is upserted into the registry. -/
def processEntry (s : Service) (r : Registry) (e : ServiceEntry) (now : Nat) :
    Registry :=
  if s.isSelf e then r
  else
    match s.buildPeer e now with
    | none => r
    | some peer => r.Add peer now

end Service

/-! ### Reachable manager states -/

/-- One state transition of the session manager, as driven by the HTTP API:
session creation, join, and leave. -/
inductive ManagerStep : Manager → Manager → Prop where
  | create (m : Manager) (id filePath initiator : String) (now : Nat) :
      ManagerStep m (m.Create id filePath initiator now).2
  | join (m : Manager) (sessionID participantID : String) :
      ManagerStep m (m.AddParticipant sessionID participantID).2
  | leave (m : Manager) (sessionID participantID : String) :
      ManagerStep m (m.RemoveParticipant sessionID participantID)

/-- Manager states reachable from the empty table through create/join/leave. -/
def Reachable (m : Manager) : Prop :=
  Relation.ReflTransGen ManagerStep Manager.empty m

/-- Well-formedness of a stored session: a non-empty, duplicate-free
participant list. -/
def SessionWF (s : Session) : Prop :=
  s.Participants ≠ [] ∧ s.Participants.Nodup

/-- Well-formedness of the session table. -/
def ManagerWF (m : Manager) : Prop :=
  ∀ s ∈ m.sessions, SessionWF s

/-! ### Concrete states used by witnesses and counterexamples -/

/-- The manager after `Create` of a single session by alice at time 5. -/
def mAlice : Manager :=
  (Manager.empty.Create "session-5" "src/app.ts" "alice" 5).2

/-- A peer record carrying a caller-supplied `LastSeen` of 0. -/
def stalePeer : Peer :=
  ⟨"p1", "p1", "10.0.0.5", 8080, "", "", "", "idle", 0, false⟩

/-- A peer record carrying a bogus caller-supplied `LastSeen` of 999. -/
def callerStampedPeer : Peer :=
  ⟨"p2", "p2", "10.0.0.6", 8080, "", "", "", "idle", 999, false⟩

/-- A discovery service state advertising as "host" on port 8080 with one
local IPv4 address. -/
def hostService : Service := ⟨"host", 8080, ["192.168.1.2"], []⟩

/-- A browse entry that matches `hostService` in name, port, and address. -/
def selfEntry : ServiceEntry := ⟨"host", 8080, ["192.168.1.2"], [], []⟩

/-! ### Decimal digit strings

`genSessionID` embeds the clock reading with Go's `%d` formatting, modelled by
`toString : Nat → String`, i.e. `Nat.repr`. To reason about identifier
freshness we need that distinct numbers yield distinct decimal strings, proved
below through a decoding function. -/

/-- Numeric value of a decimal digit character. -/
def digitVal (c : Char) : Nat := c.toNat - 48

/-- Decimal value of a digit string, most significant digit first. -/
def decodeDigits (l : List Char) : Nat :=
  l.foldl (fun acc c => 10 * acc + digitVal c) 0

/-! ### Lemmas on decimal digit strings -/

theorem toDigitsCore_succ (f n : Nat) (ds : List Char) :
    Nat.toDigitsCore 10 (f + 1) n ds =
      if n / 10 = 0 then Nat.digitChar (n % 10) :: ds
      else Nat.toDigitsCore 10 f (n / 10) (Nat.digitChar (n % 10) :: ds) := rfl

theorem toDigitsCore_fuel_eq (n : Nat) :
    ∀ fuel fuel' (ds : List Char), n < fuel → n < fuel' →
      Nat.toDigitsCore 10 fuel n ds = Nat.toDigitsCore 10 fuel' n ds := by
  induction n using Nat.strong_induction_on with
  | _ n ih =>
    intro fuel fuel' ds hf hf'
    cases fuel with
    | zero => exact absurd hf (Nat.not_lt_zero n)
    | succ f =>
      cases fuel' with
      | zero => exact absurd hf' (Nat.not_lt_zero n)
      | succ f' =>
        rw [toDigitsCore_succ, toDigitsCore_succ]
        by_cases h0 : n / 10 = 0
        · rw [if_pos h0, if_pos h0]
        · rw [if_neg h0, if_neg h0]
          have hn : 0 < n := by omega
          have hlt : n / 10 < n := Nat.div_lt_self hn (by norm_num)
          exact ih (n / 10) hlt f f' _ (by omega) (by omega)

theorem toDigitsCore_append (n : Nat) :
    ∀ fuel (ds : List Char), n < fuel →
      Nat.toDigitsCore 10 fuel n ds = Nat.toDigitsCore 10 fuel n [] ++ ds := by
  induction n using Nat.strong_induction_on with
  | _ n ih =>
    intro fuel ds hf
    cases fuel with
    | zero => exact absurd hf (Nat.not_lt_zero n)
    | succ f =>
      rw [toDigitsCore_succ, toDigitsCore_succ]
      by_cases h0 : n / 10 = 0
      · rw [if_pos h0, if_pos h0]; rfl
      · rw [if_neg h0, if_neg h0]
        have hn : 0 < n := by omega
        have hlt : n / 10 < n := Nat.div_lt_self hn (by norm_num)
        have hfuel : n / 10 < f := by omega
        rw [ih (n / 10) hlt f (Nat.digitChar (n % 10) :: ds) hfuel,
          ih (n / 10) hlt f [Nat.digitChar (n % 10)] hfuel, List.append_assoc]
        rfl

theorem decode_append_digit (l : List Char) (c : Char) :
    decodeDigits (l ++ [c]) = 10 * decodeDigits l + digitVal c := by
  simp [decodeDigits, List.foldl_append]

theorem digitVal_digitChar (n : Nat) (h : n < 10) :
    digitVal (Nat.digitChar n) = n := by
  interval_cases n <;> decide

theorem decode_toDigits (n : Nat) : decodeDigits (Nat.toDigits 10 n) = n := by
  induction n using Nat.strong_induction_on with
  | _ n ih =>
    show decodeDigits (Nat.toDigitsCore 10 (n + 1) n []) = n
    rw [toDigitsCore_succ]
    by_cases h0 : n / 10 = 0
    · rw [if_pos h0]
      have hn : n < 10 := by omega
      simp only [decodeDigits, List.foldl_cons, List.foldl_nil, Nat.mul_zero,
        Nat.zero_add]
      rw [digitVal_digitChar _ (Nat.mod_lt _ (by norm_num))]
      omega
    · rw [if_neg h0]
      have hn : 0 < n := by omega
      have hlt : n / 10 < n := Nat.div_lt_self hn (by norm_num)
      rw [toDigitsCore_append (n / 10) n _ hlt,
        toDigitsCore_fuel_eq (n / 10) n (n / 10 + 1) [] hlt (Nat.lt_succ_self _),
        decode_append_digit]
      have ih' : decodeDigits (Nat.toDigitsCore 10 (n / 10 + 1) (n / 10) []) = n / 10 :=
        ih (n / 10) hlt
      rw [ih', digitVal_digitChar _ (Nat.mod_lt _ (by norm_num))]
      omega

theorem natRepr_inj {a b : Nat} (h : Nat.repr a = Nat.repr b) : a = b := by
  have hd : Nat.toDigits 10 a = Nat.toDigits 10 b := congrArg String.data h
  have hdec := congrArg decodeDigits hd
  rwa [decode_toDigits, decode_toDigits] at hdec

theorem genSessionID_inj {a b : Nat} (h : genSessionID a = genSessionID b) :
    a = b := by
  have hd : "session-".data ++ Nat.toDigits 10 a =
      "session-".data ++ Nat.toDigits 10 b := congrArg String.data h
  have hlist : Nat.toDigits 10 a = Nat.toDigits 10 b :=
    List.append_cancel_left hd
  have hdec := congrArg decodeDigits hlist
  rwa [decode_toDigits, decode_toDigits] at hdec

/-! ### Lemmas on the session manager -/

theorem removeFirst_sublist (participantID : String) (l : List String) :
    List.Sublist (removeFirst participantID l) l := by
  induction l with
  | nil => exact List.Sublist.refl []
  | cons p ps ih =>
    simp only [removeFirst]
    by_cases h : p = participantID
    · rw [if_pos h]
      exact (List.Sublist.refl ps).cons p
    · rw [if_neg h]
      exact ih.cons₂ p

theorem removeFirst_self (participantID : String) :
    removeFirst participantID [participantID] = [] := by
  simp [removeFirst]

theorem find?_filter_ne_none (l : List Session) (id : String) :
    (l.filter (fun t => t.ID ≠ id)).find? (fun t => t.ID = id) = none := by
  rw [List.find?_eq_none]
  intro x hx
  have hmem := (List.mem_filter.mp hx).2
  simp only [ne_eq, decide_not, Bool.not_eq_eq_eq_not, Bool.not_true,
    decide_eq_false_iff_not] at hmem
  simp [hmem]

theorem find?_map_set (l : List Session) (s s' : Session)
    (hget : l.find? (fun t => t.ID = s'.ID) = some s) :
    (l.map (fun t => if t.ID = s'.ID then s' else t)).find?
      (fun t => t.ID = s'.ID) = some s' := by
  induction l with
  | nil => simp at hget
  | cons t l ih =>
    by_cases ht : t.ID = s'.ID
    · rw [List.map_cons, if_pos ht]
      exact List.find?_cons_of_pos _ (by simp)
    · rw [List.map_cons, if_neg ht]
      rw [List.find?_cons_of_neg _ (by simp [ht])]
      rw [List.find?_cons_of_neg _ (by simp [ht])] at hget
      exact ih hget

theorem mem_setSession {m : Manager} {s' x : Session}
    (hx : x ∈ (m.setSession s').sessions) : x = s' ∨ x ∈ m.sessions := by
  rcases List.mem_map.mp hx with ⟨t, ht, rfl⟩
  by_cases h : t.ID = s'.ID
  · rw [if_pos h]; exact Or.inl rfl
  · rw [if_neg h]; exact Or.inr ht

theorem Get_Create (m : Manager) (id filePath initiator : String) (now : Nat) :
    (m.Create id filePath initiator now).2.Get id =
      some ⟨id, filePath, [initiator], initiator, now⟩ := by
  simp only [Manager.Create, Manager.Get]
  exact List.find?_cons_of_pos _ (by simp)

/-! ### Preservation of well-formedness -/

theorem wf_empty : ManagerWF Manager.empty := by
  intro s hs
  simp [Manager.empty] at hs

theorem wf_create (m : Manager) (hm : ManagerWF m) (id filePath initiator : String)
    (now : Nat) : ManagerWF (m.Create id filePath initiator now).2 := by
  intro s hs
  simp only [Manager.Create] at hs
  rcases List.mem_cons.mp hs with rfl | hs'
  · exact ⟨by simp, by simp⟩
  · exact hm s (List.mem_of_mem_filter hs')

theorem wf_join (m : Manager) (hm : ManagerWF m) (sessionID participantID : String) :
    ManagerWF (m.AddParticipant sessionID participantID).2 := by
  unfold Manager.AddParticipant
  split
  next => exact hm
  next s hget =>
    split
    next => exact hm
    next hmem =>
      intro x hx
      rcases mem_setSession hx with rfl | hx'
      · have hs := hm s (List.mem_of_find?_eq_some hget)
        refine ⟨by simp, ?_⟩
        simp only [List.nodup_append, List.nodup_singleton, true_and]
        exact ⟨hs.2, by simp [List.disjoint_singleton, hmem]⟩
      · exact hm x hx'

theorem wf_leave (m : Manager) (hm : ManagerWF m) (sessionID participantID : String) :
    ManagerWF (m.RemoveParticipant sessionID participantID) := by
  unfold Manager.RemoveParticipant
  split
  next => exact hm
  next s hget =>
    dsimp only
    split
    next =>
      intro x hx
      exact hm x (List.mem_of_mem_filter hx)
    next hemp =>
      intro x hx
      rcases mem_setSession hx with rfl | hx'
      · have hs := hm s (List.mem_of_find?_eq_some hget)
        refine ⟨?_, ?_⟩
        · intro hnil
          dsimp only at hnil
          rw [hnil] at hemp
          exact hemp rfl
        · exact List.Nodup.sublist
            (removeFirst_sublist participantID s.Participants) hs.2
      · exact hm x hx'

theorem reachable_wf (m : Manager) (h : Reachable m) : ManagerWF m := by
  induction h with
  | refl => exact wf_empty
  | tail _ step ih =>
    cases step with
    | create id filePath initiator now => exact wf_create _ ih id filePath initiator now
    | join sessionID participantID => exact wf_join _ ih sessionID participantID
    | leave sessionID participantID => exact wf_leave _ ih sessionID participantID

/-! ### Claims -/

/-- C1: the claim says Dispatch delivers the payload unmodified to every
connection in the session's fan-out group except the sender, with no echo to
the sender. The source's relay instead echoes every message back to its sender
and delivers nothing to anyone else: with connections A and B attached and A
dispatching bytes [1,2,3], the code's deliveries are exactly [(A,[1,2,3])],
while the specified fan-out would deliver exactly [(B,[1,2,3])]. -/
theorem c1_relay_echoes_sender_not_fanout :
    handleYjsSyncDeliveries "A" [1, 2, 3] = [("A", [1, 2, 3])] ∧
    DispatchSpec ["A", "B"] "A" [1, 2, 3] = [("B", [1, 2, 3])] ∧
    handleYjsSyncDeliveries "A" [1, 2, 3] ≠ DispatchSpec ["A", "B"] "A" [1, 2, 3] := by
  refine ⟨rfl, rfl, ?_⟩
  decide

/-- C2 counterexample: the claim says that at exactly 30s the status is Idle
and at exactly 300s Away; the code's strict comparisons give Editing at
exactly 30000 ms and Idle at exactly 300000 ms. -/
theorem c2_boundary_counterexample :
    PresenceManager.updateStatus 30000 = PresenceStatus.editing ∧
    PresenceManager.updateStatus 30000 ≠ PresenceStatus.idle ∧
    PresenceManager.updateStatus 300000 = PresenceStatus.idle ∧
    PresenceManager.updateStatus 300000 ≠ PresenceStatus.away := by
  decide

/-- C2 amended: the computed status is Editing iff elapsed ≤ 30000 ms, Idle
iff 30000 < elapsed ≤ 300000 ms, and Away iff elapsed > 300000 ms; both
boundary instants fall into the earlier (more-active) bucket. -/
theorem c2_presence_thresholds (t : Nat) :
    (PresenceManager.updateStatus t = PresenceStatus.editing ↔ t ≤ 30000) ∧
    (PresenceManager.updateStatus t = PresenceStatus.idle ↔ 30000 < t ∧ t ≤ 300000) ∧
    (PresenceManager.updateStatus t = PresenceStatus.away ↔ 300000 < t) := by
  unfold PresenceManager.updateStatus PresenceManager.idleThreshold
    PresenceManager.awayThreshold
  by_cases h1 : t > 300000
  · rw [if_pos h1]
    refine ⟨?_, ?_, ?_⟩ <;> simp <;> omega
  · rw [if_neg h1]
    by_cases h2 : t > 30000
    · rw [if_pos h2]
      refine ⟨?_, ?_, ?_⟩ <;> simp <;> omega
    · rw [if_neg h2]
      refine ⟨?_, ?_, ?_⟩ <;> simp <;> omega

/-- C3 counterexample: the claim says an entry whose last-seen age is ≥ ttl is
absent after Evict(ttl); the code's strict comparison keeps an entry whose age
equals the ttl exactly. Here the peer was stamped at time 0 and Cleanup runs
at time 1000 with ttl 1000: age 1000 ≥ ttl 1000, yet the entry survives. -/
theorem c3_boundary_counterexample :
    1000 - stalePeer.LastSeen ≥ 1000 ∧
    ((Registry.empty.Add stalePeer 0).Cleanup 1000 1000).Get "p1" = some stalePeer := by
  refine ⟨by decide, by decide⟩

/-- C3 amended: Evict(ttl) removes exactly the entries whose last-seen age
strictly exceeds ttl: an entry survives the call iff it was present and its
age is ≤ ttl. -/
theorem c3_cleanup_strict (r : Registry) (now ttl : Nat) (p : Peer) :
    p ∈ (r.Cleanup now ttl).peers ↔ p ∈ r.peers ∧ now - p.LastSeen ≤ ttl := by
  simp [Registry.Cleanup, List.mem_filter, Nat.not_lt]

/-- C4 counterexample: the claim says LeaveSession against an unknown session
id returns SessionNotFound; the code's handler answers 200 OK on an unknown
id, never 404. -/
theorem c4_leave_unknown_counterexample :
    Manager.empty.Get "session-404" = none ∧
    handleSessionLeave Manager.empty "session-404" "bob" = (StatusOK, Manager.empty) ∧
    StatusOK ≠ StatusNotFound := by
  refine ⟨rfl, rfl, by decide⟩

/-- C4 amended: LeaveSession against an unknown session id silently succeeds:
the handler answers 200 OK and leaves the session table unchanged. -/
theorem c4_leave_unknown_silent (m : Manager) (sessionID participantID : String)
    (h : m.Get sessionID = none) :
    handleSessionLeave m sessionID participantID = (StatusOK, m) := by
  unfold handleSessionLeave Manager.RemoveParticipant
  rw [h]

/-- C4 witness. -/
theorem c4_witness :
    handleSessionLeave Manager.empty "session-404" "bob" = (StatusOK, Manager.empty) :=
  c4_leave_unknown_silent Manager.empty "session-404" "bob" rfl

/-- C5 counterexample: the claim says any two CreateSession calls, including
same-instant ones, return distinct identifiers. The id is derived solely from
the nanosecond clock reading, so two calls observing the same reading collide:
the second create overwrites the first and the table holds a single session. -/
theorem c5_same_instant_counterexample :
    ((handleSessionCreate Manager.empty "src/app.ts" "alice" 7).1).ID =
      ((handleSessionCreate (handleSessionCreate Manager.empty "src/app.ts" "alice" 7).2
        "src/app.ts" "bob" 7).1).ID ∧
    ((handleSessionCreate (handleSessionCreate Manager.empty "src/app.ts" "alice" 7).2
        "src/app.ts" "bob" 7).2).Count = 1 := by
  refine ⟨rfl, rfl⟩

/-- C5 amended: CreateSession calls observing distinct nanosecond clock
readings return distinct identifiers (same-instant calls collide); every
CreateSession returns a Session whose participants are exactly the initiator,
and one CreateSession on an empty manager leaves exactly that one session in
GetAllSessions. -/
theorem c5_create_fresh_and_singleton (m : Manager)
    (filePath initiator : String) (n1 n2 now : Nat) (h : n1 ≠ n2) :
    genSessionID n1 ≠ genSessionID n2 ∧
    (handleSessionCreate m filePath initiator now).1.Participants = [initiator] ∧
    (handleSessionCreate Manager.empty filePath initiator now).2.GetAll =
      [⟨genSessionID now, filePath, [initiator], initiator, now⟩] := by
  exact ⟨fun hc => h (genSessionID_inj hc), rfl, rfl⟩

/-- C5 witness. -/
theorem c5_witness :
    genSessionID 7 ≠ genSessionID 8 ∧
    (handleSessionCreate Manager.empty "src/app.ts" "alice" 7).1.Participants = ["alice"] ∧
    (handleSessionCreate Manager.empty "src/app.ts" "alice" 7).2.GetAll =
      [⟨genSessionID 7, "src/app.ts", ["alice"], "alice", 7⟩] :=
  c5_create_fresh_and_singleton Manager.empty "src/app.ts" "alice" 7 8 7 (by decide)

/-- C6: in every manager state reachable through create/join/leave, no stored
session has an empty participant list; and removing the sole participant of a
session deletes it in the same step, so the following Get returns not-found. -/
theorem c6_no_empty_sessions (m : Manager) (h : Reachable m) :
    (∀ s ∈ m.sessions, s.Participants ≠ []) ∧
    (∀ sessionID participantID s, m.Get sessionID = some s →
      s.Participants = [participantID] →
      (m.RemoveParticipant sessionID participantID).Get sessionID = none) := by
  refine ⟨fun s hs => (reachable_wf m h s hs).1, ?_⟩
  intro sessionID participantID s hget hps
  have hrf : removeFirst participantID s.Participants = [] := by
    rw [hps]; exact removeFirst_self participantID
  unfold Manager.RemoveParticipant
  rw [hget]
  dsimp only
  rw [hrf]
  simp only [List.isEmpty_nil, if_true]
  exact find?_filter_ne_none m.sessions sessionID

/-- C6 witness. -/
theorem c6_witness :
    (∀ s ∈ mAlice.sessions, s.Participants ≠ []) ∧
    (∀ sessionID participantID s, mAlice.Get sessionID = some s →
      s.Participants = [participantID] →
      (mAlice.RemoveParticipant sessionID participantID).Get sessionID = none) :=
  c6_no_empty_sessions mAlice
    (Relation.ReflTransGen.single
      (ManagerStep.create Manager.empty "session-5" "src/app.ts" "alice" 5))

/-- C7: isSelf returns true exactly when the entry's name and port match the
advertised identity and at least one of its addresses is in the corresponding
current local address set; and an entry recognised as self is never added to
the peer registry by the discovery cycle's per-entry step. -/
theorem c7_isSelf_filter (s : Service) (e : ServiceEntry) (r : Registry) (now : Nat) :
    (s.isSelf e = true ↔
      e.Instance = s.deviceName ∧ e.Port = s.port ∧
        ((∃ a ∈ e.AddrIPv4, a ∈ s.localIPv4) ∨ (∃ a ∈ e.AddrIPv6, a ∈ s.localIPv6))) ∧
    (s.isSelf e = true → s.processEntry r e now = r) := by
  constructor
  · unfold Service.isSelf
    by_cases hc : e.Port ≠ s.port ∨ e.Instance ≠ s.deviceName
    · rw [if_pos hc]
      simp only [Bool.false_eq_true, false_iff]
      rintro ⟨h1, h2, -⟩
      rcases hc with hc | hc
      · exact hc h2
      · exact hc h1
    · rw [if_neg hc]
      push_neg at hc
      simp [List.any_eq_true, hc.1, hc.2]
  · intro hself
    unfold Service.processEntry
    rw [if_pos hself]

/-- C7 witness. -/
theorem c7_witness :
    (hostService.isSelf selfEntry = true ↔
      selfEntry.Instance = hostService.deviceName ∧
        selfEntry.Port = hostService.port ∧
        ((∃ a ∈ selfEntry.AddrIPv4, a ∈ hostService.localIPv4) ∨
          (∃ a ∈ selfEntry.AddrIPv6, a ∈ hostService.localIPv6))) ∧
    (hostService.isSelf selfEntry = true →
      hostService.processEntry Registry.empty selfEntry 0 = Registry.empty) :=
  c7_isSelf_filter hostService selfEntry Registry.empty 0

/-- C8: Upsert stores the entry with the registry's own clock reading as
last-seen, whatever last-seen the caller supplied; a second upsert of the same
identifier at a later reading refreshes last-seen to the later reading, so
last-seen never decreases across successive upserts. -/
theorem c8_upsert_stamps (r : Registry) (peer p' : Peer) (now now' : Nat)
    (hid : p'.ID = peer.ID) (hle : now ≤ now') :
    (r.Add peer now).Get peer.ID = some { peer with LastSeen := now } ∧
    ((r.Add peer now).Add p' now').Get peer.ID = some { p' with LastSeen := now' } ∧
    ∀ q, ((r.Add peer now).Add p' now').Get peer.ID = some q → now ≤ q.LastSeen := by
  have h1 : (r.Add peer now).Get peer.ID = some { peer with LastSeen := now } := by
    unfold Registry.Add Registry.Get
    exact List.find?_cons_of_pos _ (by simp)
  have h2 : ((r.Add peer now).Add p' now').Get peer.ID =
      some { p' with LastSeen := now' } := by
    unfold Registry.Add Registry.Get
    exact List.find?_cons_of_pos _ (by simp [hid])
  refine ⟨h1, h2, ?_⟩
  intro q hq
  rw [h2] at hq
  cases hq
  exact hle

/-- C8 witness. -/
theorem c8_witness :
    (Registry.empty.Add callerStampedPeer 5).Get callerStampedPeer.ID =
      some { callerStampedPeer with LastSeen := 5 } ∧
    ((Registry.empty.Add callerStampedPeer 5).Add callerStampedPeer 7).Get
        callerStampedPeer.ID = some { callerStampedPeer with LastSeen := 7 } ∧
    ∀ q, ((Registry.empty.Add callerStampedPeer 5).Add callerStampedPeer 7).Get
        callerStampedPeer.ID = some q → 5 ≤ q.LastSeen :=
  c8_upsert_stamps Registry.empty callerStampedPeer callerStampedPeer 5 7 rfl
    (by decide)

/-- C9: joining an unknown session answers 404 and leaves the table unchanged;
joining an existing session is idempotent: a participant already present makes
the call answer 200 with the table unchanged, and after any successful join the
stored participant list contains the participant exactly once. -/
theorem c9_join_idempotent (m : Manager) (hr : Reachable m)
    (sessionID participantID : String) :
    (m.Get sessionID = none →
      handleSessionJoin m sessionID participantID = (StatusNotFound, m)) ∧
    (∀ s, m.Get sessionID = some s → participantID ∈ s.Participants →
      handleSessionJoin m sessionID participantID = (StatusOK, m)) ∧
    (∀ s, m.Get sessionID = some s →
      ∀ s', (handleSessionJoin m sessionID participantID).2.Get sessionID = some s' →
        s'.Participants.count participantID = 1) := by
  have hwf := reachable_wf m hr
  have h1 : m.Get sessionID = none →
      handleSessionJoin m sessionID participantID = (StatusNotFound, m) := by
    intro h
    unfold handleSessionJoin Manager.AddParticipant
    rw [h]
    rfl
  have h2 : ∀ s, m.Get sessionID = some s → participantID ∈ s.Participants →
      handleSessionJoin m sessionID participantID = (StatusOK, m) := by
    intro s hget hmem
    unfold handleSessionJoin Manager.AddParticipant
    rw [hget]
    dsimp only
    rw [if_pos hmem]
    rfl
  refine ⟨h1, h2, ?_⟩
  intro s hget s' hget'
  have hs := hwf s (List.mem_of_find?_eq_some hget)
  have hsid : s.ID = sessionID := by
    have hp := List.find?_some hget
    simpa using hp
  by_cases hmem : participantID ∈ s.Participants
  · rw [h2 s hget hmem] at hget'
    dsimp only at hget'
    rw [hget] at hget'
    cases hget'
    exact List.count_eq_one_of_mem hs.2 hmem
  · have hjoin : handleSessionJoin m sessionID participantID =
        (StatusOK, m.setSession { s with Participants := s.Participants ++ [participantID] }) := by
      unfold handleSessionJoin Manager.AddParticipant
      rw [hget]
      dsimp only
      rw [if_neg hmem]
      rfl
    rw [hjoin] at hget'
    dsimp only at hget'
    subst hsid
    have hfind :
        (m.setSession { s with Participants := s.Participants ++ [participantID] }).Get s.ID =
          some { s with Participants := s.Participants ++ [participantID] } :=
      find?_map_set m.sessions s
        { s with Participants := s.Participants ++ [participantID] } hget
    rw [hfind] at hget'
    cases hget'
    dsimp only
    rw [List.count_append]
    rw [List.count_eq_zero.mpr hmem]
    simp

/-- C9 witness. -/
theorem c9_witness :
    handleSessionJoin mAlice "session-5" "alice" = (StatusOK, mAlice) ∧
    ∀ s', (handleSessionJoin mAlice "session-5" "alice").2.Get "session-5" = some s' →
      s'.Participants.count "alice" = 1 := by
  have h := c9_join_idempotent mAlice
    (Relation.ReflTransGen.single
      (ManagerStep.create Manager.empty "session-5" "src/app.ts" "alice" 5))
    "session-5" "alice"
  exact ⟨h.2.1 ⟨"session-5", "src/app.ts", ["alice"], "alice", 5⟩ (by decide) (by decide),
    h.2.2 ⟨"session-5", "src/app.ts", ["alice"], "alice", 5⟩ (by decide)⟩

/-- C10: Create is total and, called with an id already present, replaces the
stored session outright: afterwards Get yields the new session (file path,
participants = the new initiator, creation time), with the old one discarded
and no error reported. -/
theorem c10_create_replaces (m : Manager) (id filePath initiator : String)
    (now : Nat) (sOld : Session) (h : m.Get id = some sOld) :
    (m.Create id filePath initiator now).1 =
      ⟨id, filePath, [initiator], initiator, now⟩ ∧
    (m.Create id filePath initiator now).2.Get id =
      some ⟨id, filePath, [initiator], initiator, now⟩ :=
  ⟨rfl, Get_Create m id filePath initiator now⟩

/-- C10 witness. -/
theorem c10_witness :
    (mAlice.Create "session-5" "lib.ts" "carol" 9).1 =
      ⟨"session-5", "lib.ts", ["carol"], "carol", 9⟩ ∧
    (mAlice.Create "session-5" "lib.ts" "carol" 9).2.Get "session-5" =
      some ⟨"session-5", "lib.ts", ["carol"], "carol", 9⟩ :=
  c10_create_replaces mAlice "session-5" "lib.ts" "carol" 9
    ⟨"session-5", "src/app.ts", ["alice"], "alice", 5⟩ (by decide)

end ZeroPR
